import Mathlib

/-!
A shallow embedding, in Lean 4, of the refresh orchestration layer of the
store_scrap repository, together with theorems checking the specification
against the code.

Conventions used throughout this development:

* JavaScript numbers used as millisecond timestamps are modelled as `Int`
  (cursor inputs, which may be negative) or `Nat` (counts, sizes).
* ISO date strings produced by `new Date().toISOString()` are carried around
  as opaque `String` values; where code only compares parsed times, the
  parsed value is an `Int` millisecond timestamp.  Parsing a date string
  (`new Date(s)` plus the `NaN` check) is an external platform facility and is
  modelled as an explicit `parseDate : String → Option Int` parameter, where
  `none` stands for an invalid date.
* Upstream I/O (HTTP fetches, scraper calls) is modelled by passing the
  outcome of the call as an explicit argument (`FetchOutcome`, or a
  per-attempt function `Nat → Except String α` for the retry loop).
* A JavaScript value that may be `null`/`undefined` is an `Option`.
-/

namespace StoreScrap

/-! ## Data model

`ErrorRecord` and `StoreData` mirror the per-(source, key) record shape
`{ country, store, updatedAt | preservedAt, new, updated, errors }` built by
`scripts/google.mjs`, `scripts/apple.mjs` and the server.  An error record is
`{ message, preserved? }`; the `preserved` field is absent (`none`) when the
code writes `{ message: error.message }` with no `preserved` key. -/

structure Listing where
  id : String
  name : String
  developer : String
  url : String
  artwork : String
  price : Option String
  isFree : Bool
  releaseDate : Option Int
  genres : List String
  country : String
  deriving Repr, DecidableEq

structure ErrorRecord where
  message : String
  preserved : Option Bool
  deriving Repr, DecidableEq

structure StoreData where
  country : String
  store : String
  updatedAt : Option String
  preservedAt : Option String
  new : List Listing
  updated : List Listing
  errors : List ErrorRecord
  deriving Repr, DecidableEq

/-- Outcome of one upstream call: the resolved value, or the thrown error
message. -/
inductive FetchOutcome (α : Type) where
  | ok (value : α)
  | err (message : String)
  deriving Repr, DecidableEq

/-! ## Round-Robin Cursor Scheduler (`roundRobinSlice`, util part_000 lines 97-114)

The JS loop
`for (let i = 0; i < limit; i += 1) slice.push(list[(normalizedCursor + i) % list.length])`
is transcribed as a map over `List.range limit`.  `Math.max(0, cursor)` on an
integer is exactly `Int.toNat`. -/

structure RRResult (α : Type) where
  slice : List α
  nextCursor : Int
  deriving Repr, DecidableEq

def roundRobinSlice (list : List α) (cursor : Int) (size : Nat) : RRResult α :=
  if hl : list.length = 0 then ⟨[], 0⟩
  else
    let normalizedCursor : Nat := cursor.toNat % list.length
    let limit : Nat := min size list.length
    let slice : List α := (List.range limit).map fun i =>
      list.get ⟨(normalizedCursor + i) % list.length, Nat.mod_lt _ (Nat.pos_of_ne_zero hl)⟩
    ⟨slice, ((normalizedCursor + slice.length) % list.length : Nat)⟩

/-- Modelled from the spec wording of claim C1 / spec section 4.4, for
comparison with `roundRobinSlice`: normalize the cursor to
`cursor mod len(catalog)` (mathematical modulus on integers), take
`min(batchSize, len)` items from the normalized cursor wrapping around the
end, and return `nextCursor = (normalizedCursor + returnedBatchSize) mod len`. -/
def specNextBatch (list : List α) (cursor : Int) (size : Nat) : RRResult α :=
  if hl : list.length = 0 then ⟨[], 0⟩
  else
    let normalizedCursor : Nat := (cursor % (list.length : Int)).toNat
    let count : Nat := min size list.length
    let batch : List α := (List.range count).map fun i =>
      list.get ⟨(normalizedCursor + i) % list.length, Nat.mod_lt _ (Nat.pos_of_ne_zero hl)⟩
    ⟨batch, ((normalizedCursor + count) % list.length : Nat)⟩

/-- Repeated invocation of the scheduler, exactly as `build()` uses it: each
call is fed the cursor returned by the previous call, and the produced batches
are concatenated in order. -/
def rrRun (list : List α) (size : Nat) : Int → Nat → List α
  | _, 0 => []
  | cursor, k + 1 =>
    (roundRobinSlice list cursor size).slice ++
      rrRun list size (roundRobinSlice list cursor size).nextCursor k

/-! ## Freshness Cache

`isCacheFresh` (util part_000 lines 79-88) guards the long-TTL iTunes lookup
cache: the entry may be missing (`!entry`), its `updatedAt` may be missing or
the empty string (both falsy in `!entry.updatedAt`), and `new Date(s)` may
fail to parse (`NaN`), modelled by `parseDate s = none`.  `isFresh`
(server part of `google.mjs`, lines 110-115) guards the short-TTL per-country
cache, whose `fetchedAt` is a numeric `Date.now()` value that never needs
parsing. -/

structure CachedRecord where
  updatedAt : Option String
  deriving Repr, DecidableEq

def isCacheFresh (parseDate : String → Option Int) (now : Int)
    (entry : Option CachedRecord) (ttlMs : Int) : Bool :=
  match entry with
  | none => false
  | some e =>
    match e.updatedAt with
    | none => false
    | some s =>
      if s = "" then false
      else
        match parseDate s with
        | none => false
        | some t => decide (now - t ≤ ttlMs)

structure ServerCacheEntry where
  data : StoreData
  fetchedAt : Int
  deriving Repr, DecidableEq

def isFresh (now cacheTtlMs : Int) (entry : Option ServerCacheEntry) : Bool :=
  match entry with
  | none => false
  | some e => decide (now - e.fetchedAt ≤ cacheTtlMs)

/-- A concrete date parser used by witnesses: recognizes exactly "2024". -/
def parse2024 : String → Option Int :=
  fun s => if s = "2024" then some 100 else none

/-! ## Google fetcher and the Fallback-Merge Policy call sites

`fetchGoogleData` (`scripts/google.mjs` lines 27-65): on success, a fresh
record (errors empty); on a thrown scraper error, a shallow copy of
`previousData` with `preservedAt` set and a `preserved: true` error appended,
or an empty record with a non-preserved error when no previous value exists.

`getStoreDataFallback` is the `catch` branch of the server's `getStoreData`
(lines 182-203), applied when a per-store fetch throws.

`buildAppleFallback` is the `catch` branch around `fetchAppleData` in
`scripts/build.mjs` (lines 76-92). -/

structure GplayEntry where
  appId : String
  title : String
  developer : String
  url : String
  icon : String
  priceText : Option String
  free : Option Bool
  price : Option Int
  updated : Option Int
  genre : Option String
  deriving Repr, DecidableEq

def mapEntry (entry : GplayEntry) (country : String) : Listing :=
  { id := entry.appId
    name := entry.title
    developer := entry.developer
    url := entry.url
    artwork := entry.icon
    price :=
      match entry.priceText with
      | some p => some p
      | none => if entry.free = some true then some "Free" else none
    isFree :=
      match entry.free with
      | some b => b
      | none => entry.price == some 0
    releaseDate :=
      match entry.updated with
      | some t => if t = 0 then none else some t
      | none => none
    genres :=
      match entry.genre with
      | some g => if g = "" then [] else [g]
      | none => []
    country := country }

def fetchGoogleData (country : String) (previousData : Option StoreData)
    (outcome : FetchOutcome (List GplayEntry × List GplayEntry)) (now : String) :
    StoreData :=
  match outcome with
  | .ok (newApps, updatedApps) =>
    { country := country, store := "google", updatedAt := some now,
      preservedAt := none,
      new := newApps.map (fun entry => mapEntry entry country),
      updated := updatedApps.map (fun entry => mapEntry entry country),
      errors := [] }
  | .err message =>
    match previousData with
    | some prev =>
      { prev with
        country := country, store := "google", preservedAt := some now,
        errors := prev.errors ++ [{ message := message, preserved := some true }] }
    | none =>
      { country := country, store := "google", updatedAt := some now,
        preservedAt := none, new := [], updated := [],
        errors := [{ message := message, preserved := none }] }

def getStoreDataFallback (store country : String) (fallback : Option StoreData)
    (message now : String) : StoreData :=
  match fallback with
  | some f =>
    { f with
      preservedAt := some now,
      errors := f.errors ++ [{ message := message, preserved := some true }] }
  | none =>
    { country := country, store := store, updatedAt := some now,
      preservedAt := none, new := [], updated := [],
      errors := [{ message := message, preserved := none }] }

def buildAppleFallback (country : String) (previousApple : Option StoreData)
    (message now : String) : StoreData :=
  let appleData := previousApple.getD
    { country := country, store := "apple", updatedAt := some now,
      preservedAt := none, new := [], updated := [], errors := [] }
  { appleData with
    errors := appleData.errors ++
      [{ message := message, preserved := some previousApple.isSome }] }

/-! ## Apple fetcher (part_001 lines 87-158)

`fetchAppleData` is parametrized by the already-resolved RSS feed contents per
type (`fetchRssFeed` never throws: it falls back across feed names and returns
`[]` on total failure) and by the outcome of each per-item iTunes lookup
(`lookup id`), covering a successful lookup, a lookup that resolved with no
result (`!itunesData`), and a lookup that threw. -/

structure RssEntry where
  id : String
  name : String
  artistName : String
  url : String
  artworkUrl100 : String
  releaseDate : Option Int
  deriving Repr, DecidableEq

structure ItunesData where
  genres : List String
  formattedPrice : Option String
  price : Option Int
  releaseDate : Option Int
  deriving Repr, DecidableEq

inductive LookupResult where
  | found (data : ItunesData)
  | missing
  | threw (message : String)
  deriving Repr, DecidableEq

def formatItem (result : RssEntry) (itunesData : Option ItunesData)
    (country : String) : Listing :=
  { id := result.id
    name := result.name
    developer := result.artistName
    url := result.url
    artwork := result.artworkUrl100
    price := some
      (match itunesData with
       | some d => d.formattedPrice.getD "Free"
       | none => "Free")
    isFree :=
      match itunesData with
      | some d =>
        match d.price with
        | some p => p == 0
        | none => true
      | none => true
    releaseDate :=
      match itunesData with
      | some d =>
        match d.releaseDate with
        | some r => some r
        | none => result.releaseDate
      | none => result.releaseDate
    genres :=
      match itunesData with
      | some d => d.genres
      | none => []
    country := country }

/-- The body of the per-entry limiter task in `fetchAppleData`: look the entry
up, drop it (`null`) when the lookup throws, finds nothing, or the item is not
categorized as a game; otherwise format it. -/
def enrichEntry (lookup : String → LookupResult) (country : String)
    (entry : RssEntry) : Option Listing :=
  match lookup entry.id with
  | .threw _ => none
  | .missing => none
  | .found d =>
    if d.genres.contains "Games" then some (formatItem entry (some d) country)
    else none

/-- True exactly when the per-entry task drops the entry. -/
def dropsEntry : LookupResult → Bool
  | .threw _ => true
  | .missing => true
  | .found d => !(d.genres.contains "Games")

def RETRY_DELAYS : List Nat := [300, 800, 1500]

def TARGET_SIZE : Nat := 50

/-- The JS comparator `(a, b) => bDate - aDate` over
`releaseDate ? getTime() : 0`. -/
def sortKeyOf (a : Listing) : Int := a.releaseDate.getD 0

def fetchAppleData (country : String) (newEntries updatedEntries : List RssEntry)
    (lookup : String → LookupResult) (now : String) : StoreData :=
  let normalizedNew := (newEntries.map (enrichEntry lookup country)).filterMap id
  let sortedNew := normalizedNew.mergeSort fun a b =>
    decide (sortKeyOf b ≤ sortKeyOf a)
  let normalizedUpdated :=
    (updatedEntries.map (enrichEntry lookup country)).filterMap id
  { country := country, store := "apple", updatedAt := some now,
    preservedAt := none,
    new := sortedNew.take TARGET_SIZE,
    updated := normalizedUpdated.take TARGET_SIZE,
    errors := [] }

/-! ## Retry-with-Backoff (`fetchWithRetry`, part_001 lines 32-45)

The attempted operation is a function from the attempt index to that
attempt's outcome.  The trace records the returned (or finally thrown)
result, the number of attempts made, and the delays slept, in order. -/

structure RetryTrace (α : Type) where
  result : Except String α
  attempts : Nat
  slept : List Nat
  deriving Repr

def retryLoop (op : Nat → Except String α) (i : Nat) :
    List Nat → RetryTrace α
  | [] =>
    match op i with
    | .ok v => ⟨.ok v, 1, []⟩
    | .error e => ⟨.error e, 1, []⟩
  | d :: rest =>
    match op i with
    | .ok v => ⟨.ok v, 1, []⟩
    | .error _ =>
      let t := retryLoop op (i + 1) rest
      ⟨t.result, t.attempts + 1, d :: t.slept⟩

def fetchWithRetry (op : Nat → Except String α) (delays : List Nat) :
    RetryTrace α :=
  retryLoop op 0 delays

/-! ## Bounded Concurrency Limiter (`createLimiter`, util part_000 lines 21-52)

The closure state `{ active, queue }` is extended with ghost logs: the order
in which tasks were submitted, the order in which they were started, which
tasks are currently running, and each settled task's delivered outcome.  Each
task is identified by a number; `tasks t` is task `t`'s own outcome.  A step
is either a submission (`push` then `next()`) or the settlement of a running
task (`active -= 1`, deliver its own result, then `next()`), matching the JS
event-loop atomicity of those code sections. -/

structure LimiterState where
  limit : Nat
  active : Nat
  queue : List Nat
  running : List Nat
  submitted : List Nat
  started : List Nat
  resolved : List (Nat × Except String Nat)
  deriving Repr

/-- The `next()` closure: start the queue head when below the limit. -/
def tryNext (s : LimiterState) : LimiterState :=
  match s.queue with
  | [] => s
  | t :: rest =>
    if s.active < s.limit then
      { s with
        queue := rest, active := s.active + 1,
        running := s.running ++ [t], started := s.started ++ [t] }
    else s

/-- The returned function: push the task, then `next()`. -/
def submitTask (s : LimiterState) (t : Nat) : LimiterState :=
  tryNext { s with queue := s.queue ++ [t], submitted := s.submitted ++ [t] }

/-- A running task settles: `active -= 1`, its caller receives the task's own
outcome (`resolve(value)` or `reject(error)`), then `next()`. -/
def settleTask (tasks : Nat → Except String Nat) (s : LimiterState) (t : Nat) :
    LimiterState :=
  tryNext
    { s with
      active := s.active - 1, running := s.running.erase t,
      resolved := s.resolved ++ [(t, tasks t)] }

def initLimiter (limit : Nat) : LimiterState :=
  ⟨limit, 0, [], [], [], [], []⟩

inductive LimStep (tasks : Nat → Except String Nat) :
    LimiterState → LimiterState → Prop where
  | submit (s : LimiterState) (t : Nat) : LimStep tasks s (submitTask s t)
  | settle (s : LimiterState) (t : Nat) (ht : t ∈ s.running) :
      LimStep tasks s (settleTask tasks s t)

inductive LimReach (tasks : Nat → Except String Nat) : LimiterState → Prop where
  | init (limit : Nat) : LimReach tasks (initLimiter limit)
  | step {s s2 : LimiterState} (h : LimReach tasks s) (hs : LimStep tasks s s2) :
      LimReach tasks s2

/-! ## On-demand server (server part of `google.mjs`)

`getStoreDataStep` is the synchronous section of `getStoreData`
(lines 164-211): consult the cache, else attach to the in-flight promise for
the key, else register a new promise (issuing one upstream fetch) under the
key.  In the single-threaded event loop this whole section runs atomically
between awaits.  `cache` and `inFlight` are the two module-level `Map`s;
`fetchCount` counts upstream fetches issued; `nextPid` names promises.
`resolvePid` maps each promise to the value it eventually resolves with (the
async IIFE always resolves: every failure path produces fallback data). -/

structure ServerState where
  cache : List (String × ServerCacheEntry)
  inFlight : List (String × Nat)
  nextPid : Nat
  fetchCount : Nat
  deriving Repr, DecidableEq

/-- What a caller is handed back by `getStoreData`: a fresh cached value, or
the promise it must await (either the pre-existing in-flight one or the newly
started one). -/
inductive ReqResult where
  | cached (d : StoreData)
  | joined (pid : Nat)
  | started (pid : Nat)
  deriving Repr, DecidableEq

def startOrJoin (s : ServerState) (key : String) : ReqResult × ServerState :=
  match s.inFlight.lookup key with
  | some pid => (.joined pid, s)
  | none =>
    (.started s.nextPid,
      { s with
        inFlight := (key, s.nextPid) :: s.inFlight,
        nextPid := s.nextPid + 1,
        fetchCount := s.fetchCount + 1 })

def getStoreDataStep (now ttl : Int) (s : ServerState) (store country : String)
    (force : Bool) : ReqResult × ServerState :=
  let key := store ++ ":" ++ country
  match s.cache.lookup key with
  | some c =>
    if !force && isFresh now ttl (some c) then (.cached c.data, s)
    else startOrJoin s key
  | none => startOrJoin s key

/-- The value a caller ends up with after awaiting what `getStoreData`
returned, given the promise resolutions. -/
def awaitResult (resolvePid : Nat → StoreData) : ReqResult → StoreData
  | .cached d => d
  | .joined pid => resolvePid pid
  | .started pid => resolvePid pid

/-! ## API route for a country (`handleApi`, lines 274-290)

`code` is the uppercased final path segment (`none` when `pop()` yields
nothing).  An unknown code is rejected with 404 before any store fetch; a
known code triggers the apple and then the google `getStoreData` calls and
responds 200 once both resolve (`getStoreData` never rejects: its `catch`
produces fallback data). -/

def handleCountryRequest (countryCodes : List String) (code : Option String)
    (now ttl : Int) (s : ServerState) (force : Bool) : Nat × ServerState :=
  match code with
  | none => (404, s)
  | some c =>
    if c = "" ∨ ¬ countryCodes.contains c then (404, s)
    else
      let r1 := getStoreDataStep now ttl s "apple" c force
      let r2 := getStoreDataStep now ttl r1.2 "google" c force
      (200, r2.2)

/-! ## Concrete sample values used by witnesses and counterexamples -/

def listingExample : Listing :=
  { id := "g1", name := "Game One", developer := "Dev", url := "u",
    artwork := "a", price := some "Free", isFree := true,
    releaseDate := some 1000, genres := ["Games"], country := "US" }

def prevGoogleExample : StoreData :=
  { country := "US", store := "google", updatedAt := some "T0",
    preservedAt := none, new := [listingExample], updated := [], errors := [] }

def prevAppleExample : StoreData :=
  { country := "US", store := "apple", updatedAt := some "T0",
    preservedAt := none, new := [], updated := [], errors := [] }

def rssEntryExample : RssEntry :=
  { id := "a1", name := "App One", artistName := "Dev", url := "u",
    artworkUrl100 := "art", releaseDate := some 5 }

/-!
# Theorems
-/

lemma toNat_emod_eq (m n : Nat) : ((m : Int) % (n : Int)).toNat = m % n := by
  rw [← Int.natCast_mod]
  exact Int.toNat_natCast _

/-- C1 (corrected).  For every catalog, every non-negative cursor and every
batchSize, `roundRobinSlice` agrees with the spec algorithm `specNextBatch`
(normalize the cursor mod the catalog length, take `min(batchSize, len)` items
from there wrapping past the end, return
`nextCursor = (normalizedCursor + returnedBatchSize) mod len`); and the
concrete example `catalog ["US","CA","GB","FR"], cursor 3, batchSize 2`
returns batch `["FR","US"]` and nextCursor `1`.  The restriction to
non-negative cursors is forced: the code clamps a negative cursor to `0`
(`Math.max(0, cursor)`) instead of reducing it mod the catalog length, see
`roundRobin_negative_cursor_cex`. -/
theorem roundRobin_nonneg_cursor_matches_spec {α : Type} (list : List α)
    (cursor : Int) (size : Nat) (hc : 0 ≤ cursor) :
    roundRobinSlice list cursor size = specNextBatch list cursor size ∧
    roundRobinSlice ["US", "CA", "GB", "FR"] 3 2 = ⟨["FR", "US"], 1⟩ := by
  constructor
  · obtain ⟨m, rfl⟩ := Int.eq_ofNat_of_zero_le hc
    by_cases hl : list.length = 0
    · simp [roundRobinSlice, specNextBatch, hl]
    · simp [roundRobinSlice, specNextBatch, hl, toNat_emod_eq]
  · decide

/-- Witness for `roundRobin_nonneg_cursor_matches_spec` at a concrete input. -/
theorem roundRobin_nonneg_cursor_matches_spec_witness :
    roundRobinSlice ["A", "B"] 5 3 = specNextBatch ["A", "B"] 5 3 ∧
    roundRobinSlice ["US", "CA", "GB", "FR"] 3 2 = ⟨["FR", "US"], 1⟩ :=
  roundRobin_nonneg_cursor_matches_spec ["A", "B"] 5 3 (by decide)

/-- C1 counterexample.  At cursor `-1` on the catalog `["US","CA","GB","FR"]`
the code clamps the cursor to `0` and returns batch `["US","CA"]` with
nextCursor `2`, while the claim's normalization `cursor mod len(catalog)`
(which is `3` for `-1 mod 4`) would return batch `["FR","US"]` with
nextCursor `1`. -/
theorem roundRobin_negative_cursor_cex :
    roundRobinSlice ["US", "CA", "GB", "FR"] (-1) 2 = ⟨["US", "CA"], 2⟩ ∧
    specNextBatch ["US", "CA", "GB", "FR"] (-1) 2 = ⟨["FR", "US"], 1⟩ ∧
    roundRobinSlice ["US", "CA", "GB", "FR"] (-1) 2 ≠
      specNextBatch ["US", "CA", "GB", "FR"] (-1) 2 := by
  refine ⟨by decide, by decide, by decide⟩

lemma get_congr_idx (l : List α) {i j : Nat} (hi : i < l.length)
    (hj : j < l.length) (h : i = j) : l.get ⟨i, hi⟩ = l.get ⟨j, hj⟩ := by
  subst h; rfl

lemma roundRobinSlice_eq (list : List α) (hl : list.length ≠ 0) (cursor : Int)
    (size : Nat) :
    roundRobinSlice list cursor size =
      ⟨(List.range (min size list.length)).map (fun i =>
          list.get ⟨(cursor.toNat % list.length + i) % list.length,
            Nat.mod_lt _ (Nat.pos_of_ne_zero hl)⟩),
        ((cursor.toNat % list.length + min size list.length) % list.length : Nat)⟩ := by
  simp [roundRobinSlice, hl]

lemma rrRun_closed (list : List α) (hl : list.length ≠ 0) (size : Nat)
    (cursor : Int) (k : Nat) :
    rrRun list size cursor k =
      (List.range (k * min size list.length)).map fun i =>
        list.get ⟨(cursor.toNat % list.length + i) % list.length,
          Nat.mod_lt _ (Nat.pos_of_ne_zero hl)⟩ := by
  induction k generalizing cursor with
  | zero => simp [rrRun]
  | succ k ih =>
    simp only [rrRun]
    rw [roundRobinSlice_eq list hl cursor size, ih]
    simp only [Int.toNat_natCast]
    rw [Nat.succ_mul, Nat.add_comm (k * min size list.length), List.range_add,
      List.map_append, List.map_map]
    congr 1
    apply List.map_congr_left
    intro i _
    apply get_congr_idx
    rw [Nat.mod_mod_of_dvd _ dvd_rfl, Nat.mod_add_mod, Nat.add_assoc]

lemma mapRange_cycle_eq_rotate (list : List α) (hl : list.length ≠ 0) (s : Nat) :
    ((List.range list.length).map fun i =>
        list.get ⟨(s + i) % list.length, Nat.mod_lt _ (Nat.pos_of_ne_zero hl)⟩)
      = list.rotate s := by
  apply List.ext_get
  · simp
  · intro i h₁ h₂
    rw [List.get_map, List.get_rotate, List.get_range]
    apply get_congr_idx
    rw [Nat.add_comm]

/-- C4 (confirmed).  For every non-empty catalog, every starting cursor and
every positive batchSize, feeding each call's returned cursor into the next
call for `ceil(len/batchSize)` calls produces at least `len` scheduled keys
whose first `len` entries are exactly a rotation of the catalog (catalog
order, starting at the normalized cursor): every key is visited exactly once
— a permutation of the catalog, with no duplicate when the catalog has none —
before any key repeats. -/
theorem roundRobin_cycle_covers (list : List α) (cursor : Int) (size : Nat)
    (hl : list ≠ []) (hs : 0 < size) :
    list.length ≤
      (rrRun list size cursor ((list.length + size - 1) / size)).length ∧
    (rrRun list size cursor ((list.length + size - 1) / size)).take list.length
      = list.rotate (cursor.toNat % list.length) ∧
    ((rrRun list size cursor
        ((list.length + size - 1) / size)).take list.length).Perm list ∧
    (list.Nodup →
      ((rrRun list size cursor
          ((list.length + size - 1) / size)).take list.length).Nodup) := by
  have hn : list.length ≠ 0 := fun h => hl (List.length_eq_zero.mp h)
  have key : list.length ≤
      ((list.length + size - 1) / size) * min size list.length := by
    by_cases hsn : size ≤ list.length
    · rw [min_eq_left hsn, Nat.mul_comm]
      have hd := Nat.div_add_mod (list.length + size - 1) size
      have hrlt : (list.length + size - 1) % size < size :=
        Nat.mod_lt _ hs
      generalize hA : size * ((list.length + size - 1) / size) = A at hd ⊢
      generalize hR : (list.length + size - 1) % size = R at hd hrlt
      omega
    · rw [min_eq_right (Nat.le_of_not_le hsn)]
      have hk : 1 ≤ (list.length + size - 1) / size :=
        (Nat.one_le_div_iff hs).mpr (by omega)
      calc list.length = 1 * list.length := (Nat.one_mul _).symm
        _ ≤ ((list.length + size - 1) / size) * list.length :=
            Nat.mul_le_mul_right _ hk
  have hrun := rrRun_closed list hn size cursor ((list.length + size - 1) / size)
  have htake :
      (rrRun list size cursor ((list.length + size - 1) / size)).take list.length
        = list.rotate (cursor.toNat % list.length) := by
    rw [hrun, ← List.map_take, List.take_range, min_eq_left key,
      mapRange_cycle_eq_rotate list hn]
  refine ⟨?_, htake, ?_, ?_⟩
  · rw [hrun]; simpa using key
  · rw [htake]; exact List.rotate_perm _ _
  · intro hnd; rw [htake]; exact List.nodup_rotate.mpr hnd

/-- Witness for `roundRobin_cycle_covers`: catalog `["A","B","C"]`, cursor `5`,
batchSize `2`; two calls cover all three keys once before any repeat. -/
theorem roundRobin_cycle_covers_witness :
    (rrRun (["A", "B", "C"] : List String) 2 5 2).take 3 = ["C", "A", "B"] :=
  (roundRobin_cycle_covers ["A", "B", "C"] 5 2 (by decide) (by decide)).2.1

/-- C5 (confirmed).  Under any date parser that rejects the empty string (as
`new Date("")` does), `isCacheFresh` is true iff an entry exists, its stored
timestamp parses, and `now - fetchedAt ≤ ttl`; a missing entry and an entry
with an unparseable timestamp are never fresh.  The on-demand server's
`isFresh` (numeric timestamps, nothing to parse) is likewise true iff an
entry exists and `now - fetchedAt ≤ ttl`. -/
theorem isCacheFresh_iff (parseDate : String → Option Int) (now ttl : Int)
    (entry : Option CachedRecord) (entry2 : Option ServerCacheEntry)
    (hparse : parseDate "" = none) :
    (isCacheFresh parseDate now entry ttl = true ↔
      ∃ e s t, entry = some e ∧ e.updatedAt = some s ∧ parseDate s = some t ∧
        now - t ≤ ttl) ∧
    isCacheFresh parseDate now none ttl = false ∧
    (∀ e s, entry = some e → e.updatedAt = some s → parseDate s = none →
      isCacheFresh parseDate now entry ttl = false) ∧
    (isFresh now ttl entry2 = true ↔
      ∃ e, entry2 = some e ∧ now - e.fetchedAt ≤ ttl) := by
  refine ⟨?_, rfl, ?_, ?_⟩
  · constructor
    · intro h
      match entry with
      | none => simp [isCacheFresh] at h
      | some e =>
        match he : e.updatedAt with
        | none => simp [isCacheFresh, he] at h
        | some s =>
          by_cases hs : s = ""
          · subst hs; simp [isCacheFresh, he] at h
          · match hp : parseDate s with
            | none => simp [isCacheFresh, he, hs, hp] at h
            | some t =>
              simp [isCacheFresh, he, hs, hp] at h
              exact ⟨e, s, t, rfl, he, hp, by omega⟩
    · rintro ⟨e, s, t, rfl, he, hp, hle⟩
      have hs : s ≠ "" := fun h => by rw [h, hparse] at hp; cases hp
      simp [isCacheFresh, he, hs, hp, hle]
  · intro e s he hs hp
    subst he
    simp [isCacheFresh, hs, hp]
  · match entry2 with
    | none => simp [isFresh]
    | some e => simp [isFresh]

/-- Witness for `isCacheFresh_iff` at a concrete parser and entries. -/
theorem isCacheFresh_iff_witness :
    (isCacheFresh parse2024 350 (some ⟨some "2024"⟩) 300 = true ↔
      ∃ e s t, (some (⟨some "2024"⟩ : CachedRecord)) = some e ∧
        e.updatedAt = some s ∧ parse2024 s = some t ∧ (350 : Int) - t ≤ 300) ∧
    isCacheFresh parse2024 350 none 300 = false ∧
    (∀ e s, (some (⟨some "2024"⟩ : CachedRecord)) = some e →
      e.updatedAt = some s → parse2024 s = none →
      isCacheFresh parse2024 350 (some ⟨some "2024"⟩) 300 = false) ∧
    (isFresh 350 300 (some ⟨prevAppleExample, 100⟩) = true ↔
      ∃ e, (some (⟨prevAppleExample, 100⟩ : ServerCacheEntry) :
          Option ServerCacheEntry) = some e ∧ (350 : Int) - e.fetchedAt ≤ 300) :=
  isCacheFresh_iff parse2024 350 300 (some ⟨some "2024"⟩)
    (some ⟨prevAppleExample, 100⟩) (by decide)

/-- C2 (corrected).  When a fetch for a key fails while a previous value
exists, the google fetcher's fallback (`fetchGoogleData`) and the on-demand
server's fallback (`getStoreDataFallback`) emit a shallow copy of the
previous value with `preservedAt` set to now, the error list extended by
exactly the one entry `{ message, preserved: true }`, and `new`/`updated`
(and the previous `updatedAt`) unchanged.  The snapshot build's apple
fallback (`buildAppleFallback`) appends the same `preserved: true` error and
keeps `new`/`updated` unchanged, but does not set `preservedAt` — see
`buildApple_fallback_missing_preservedAt_cex`, which is why the claim as
stated does not hold at every fallback site. -/
theorem fallbackMerge_on_failure (country message now : String)
    (prev : StoreData) :
    (fetchGoogleData country (some prev) (.err message) now).preservedAt
        = some now ∧
    (fetchGoogleData country (some prev) (.err message) now).errors.length
        = prev.errors.length + 1 ∧
    (fetchGoogleData country (some prev) (.err message) now).errors
        = prev.errors ++ [{ message := message, preserved := some true }] ∧
    (fetchGoogleData country (some prev) (.err message) now).new = prev.new ∧
    (fetchGoogleData country (some prev) (.err message) now).updated
        = prev.updated ∧
    (fetchGoogleData country (some prev) (.err message) now).updatedAt
        = prev.updatedAt ∧
    (∀ store,
      (getStoreDataFallback store country (some prev) message now).preservedAt
          = some now ∧
      (getStoreDataFallback store country (some prev) message now).errors
          = prev.errors ++ [{ message := message, preserved := some true }] ∧
      (getStoreDataFallback store country (some prev) message now).new
          = prev.new ∧
      (getStoreDataFallback store country (some prev) message now).updated
          = prev.updated) ∧
    (buildAppleFallback country (some prev) message now).errors
        = prev.errors ++ [{ message := message, preserved := some true }] ∧
    (buildAppleFallback country (some prev) message now).new = prev.new ∧
    (buildAppleFallback country (some prev) message now).updated
        = prev.updated ∧
    (buildAppleFallback country (some prev) message now).preservedAt
        = prev.preservedAt := by
  refine ⟨rfl, by simp [fetchGoogleData], rfl, rfl, rfl, rfl,
    fun store => ⟨rfl, rfl, rfl, rfl⟩, rfl, rfl, rfl, rfl⟩

/-- C2 counterexample.  In `build.mjs`, a failing apple fetch with a previous
value (`prevAppleExample`) emits a value whose `preservedAt` is absent, not
set to the current time `"T1"` as the claim requires. -/
theorem buildApple_fallback_missing_preservedAt_cex :
    (buildAppleFallback "US" (some prevAppleExample) "boom" "T1").preservedAt
        = none ∧
    (buildAppleFallback "US" (some prevAppleExample) "boom" "T1").preservedAt
        ≠ some "T1" :=
  ⟨rfl, by decide⟩

/-- C3 (corrected).  A refresh attempt that succeeds structurally but returns
no qualifying items is treated as an ordinary success, not like a failure:
`fetchGoogleData` returns the fresh empty record, discarding any previous
value (no preservation, no error entry), and `fetchAppleData` takes no
previous value at all and returns the empty record.  Only a thrown failure
triggers preservation. -/
theorem emptyResult_is_ordinary_success (country now : String)
    (prev : Option StoreData) (lookup : String → LookupResult) :
    fetchGoogleData country prev (.ok ([], [])) now =
      { country := country, store := "google", updatedAt := some now,
        preservedAt := none, new := [], updated := [], errors := [] } ∧
    (∀ newApps updatedApps,
      (fetchGoogleData country prev (.ok (newApps, updatedApps)) now).preservedAt
          = none ∧
      (fetchGoogleData country prev
          (.ok (newApps, updatedApps)) now).errors = []) ∧
    fetchAppleData country [] [] lookup now =
      { country := country, store := "apple", updatedAt := some now,
        preservedAt := none, new := [], updated := [], errors := [] } :=
  ⟨rfl, fun _ _ => ⟨rfl, rfl⟩, by simp [fetchAppleData, TARGET_SIZE]⟩

/-- C3 counterexample.  A structurally successful google fetch with empty
`new`/`updated` lists, while a previous value with a non-empty `new` list
exists, does not preserve the previous value: the emitted `new` list is
empty, differing from the previous one. -/
theorem emptyFresh_replaces_previous_cex :
    (fetchGoogleData "US" (some prevGoogleExample)
        (.ok ([], [])) "T1").new = [] ∧
    prevGoogleExample.new ≠ [] ∧
    (fetchGoogleData "US" (some prevGoogleExample) (.ok ([], [])) "T1").new
      ≠ prevGoogleExample.new ∧
    (fetchGoogleData "US" (some prevGoogleExample)
        (.ok ([], [])) "T1").preservedAt = none :=
  ⟨rfl, by decide, by decide, rfl⟩

lemma retryLoop_attempts_le (op : Nat → Except String α) (i : Nat)
    (ds : List Nat) : (retryLoop op i ds).attempts ≤ ds.length + 1 := by
  induction ds generalizing i with
  | nil => cases h : op i <;> simp [retryLoop, h]
  | cons d rest ih =>
    cases h : op i with
    | ok v => simp [retryLoop, h]
    | error e =>
      simp only [retryLoop, h, List.length_cons]
      exact Nat.succ_le_succ (ih (i + 1))

lemma retryLoop_first_success (op : Nat → Except String α) (i j : Nat) (v : α)
    (ds : List Nat) (hj : j ≤ ds.length) (hok : op (i + j) = .ok v)
    (hfail : ∀ k, k < j → ∃ e, op (i + k) = .error e) :
    retryLoop op i ds = ⟨.ok v, j + 1, ds.take j⟩ := by
  induction ds generalizing i j with
  | nil =>
    have hj0 : j = 0 := Nat.le_zero.mp hj
    subst hj0
    rw [Nat.add_zero] at hok
    simp [retryLoop, hok]
  | cons d rest ih =>
    cases j with
    | zero =>
      rw [Nat.add_zero] at hok
      simp [retryLoop, hok]
    | succ j =>
      obtain ⟨e, he⟩ := hfail 0 (Nat.succ_pos _)
      rw [Nat.add_zero] at he
      have hrec := ih (i + 1) j (Nat.le_of_succ_le_succ hj)
        (by rw [show i + 1 + j = i + (j + 1) by omega]; exact hok)
        (fun k hk => by
          rw [show i + 1 + k = i + (k + 1) by omega]
          exact hfail (k + 1) (Nat.succ_lt_succ hk))
      simp [retryLoop, he, hrec]

lemma retryLoop_all_fail (op : Nat → Except String α) (i : Nat) (ds : List Nat)
    (hfail : ∀ k, k ≤ ds.length → ∃ e, op (i + k) = .error e) :
    ∃ e, op (i + ds.length) = .error e ∧
      retryLoop op i ds = ⟨.error e, ds.length + 1, ds⟩ := by
  induction ds generalizing i with
  | nil =>
    obtain ⟨e, he⟩ := hfail 0 (Nat.le_refl 0)
    rw [Nat.add_zero] at he
    exact ⟨e, by simpa using he, by simp [retryLoop, he]⟩
  | cons d rest ih =>
    obtain ⟨e0, he0⟩ := hfail 0 (Nat.zero_le _)
    rw [Nat.add_zero] at he0
    obtain ⟨e, he, hrec⟩ := ih (i + 1) (fun k hk => by
      rw [show i + 1 + k = i + (k + 1) by omega]
      exact hfail (k + 1) (by simpa using Nat.succ_le_succ hk))
    refine ⟨e, ?_, ?_⟩
    · rw [show i + (d :: rest).length = i + 1 + rest.length by simp; omega]
      exact he
    · simp [retryLoop, he0, hrec]

/-- C6 (confirmed).  For every operation and every delay list, the retry
wrapper makes at most `len(delays) + 1` attempts; if attempt `j` is the first
success it stops there, returns that value, and has slept exactly the first
`j` delays in order; if every attempt fails it raises the last attempt's
failure after sleeping every delay. -/
theorem fetchWithRetry_spec {α : Type} (op : Nat → Except String α)
    (delays : List Nat) :
    (fetchWithRetry op delays).attempts ≤ delays.length + 1 ∧
    (∀ j v, j ≤ delays.length → op j = .ok v →
      (∀ k, k < j → ∃ e, op k = .error e) →
      fetchWithRetry op delays = ⟨.ok v, j + 1, delays.take j⟩) ∧
    ((∀ k, k ≤ delays.length → ∃ e, op k = .error e) →
      ∃ e, op delays.length = .error e ∧
        fetchWithRetry op delays = ⟨.error e, delays.length + 1, delays⟩) := by
  refine ⟨retryLoop_attempts_le op 0 delays, ?_, ?_⟩
  · intro j v hj hok hfail
    exact retryLoop_first_success op 0 j v delays hj (by simpa using hok)
      (fun k hk => by simpa using hfail k hk)
  · intro hfail
    simpa [fetchWithRetry] using
      retryLoop_all_fail op 0 delays (fun k hk => by simpa using hfail k hk)

/-- Witness for `fetchWithRetry_spec`: with the source's delay table
`[300, 800, 1500]` and an operation failing once then succeeding, the wrapper
returns the success after two attempts, having slept only the first delay. -/
theorem fetchWithRetry_spec_witness :
    fetchWithRetry
        (fun k => if k = 1 then Except.ok 42 else Except.error "boom")
        RETRY_DELAYS = ⟨.ok 42, 2, [300]⟩ :=
  (fetchWithRetry_spec
      (fun k => if k = 1 then Except.ok 42 else Except.error "boom")
      RETRY_DELAYS).2.1 1 42 (by decide) rfl
    (fun k hk => ⟨"boom", by
      have hk0 : k = 0 := by omega
      subst hk0
      rfl⟩)

/-- C7 (confirmed).  From any server state with no cached entry and no
in-flight fetch for the `(store, country)` pair, a first on-demand request
starts exactly one upstream fetch (registering promise `nextPid` in the
in-flight map), and a second request while that fetch is in flight — with any
`force` flag — attaches to the very same promise without changing the state
or issuing another fetch; awaiting, both callers receive the same resolved
value. -/
theorem inFlight_dedup (now ttl : Int) (s : ServerState)
    (store country : String) (force1 force2 : Bool)
    (resolvePid : Nat → StoreData)
    (hc : s.cache.lookup (store ++ ":" ++ country) = none)
    (hi : s.inFlight.lookup (store ++ ":" ++ country) = none) :
    (getStoreDataStep now ttl s store country force1).1 = .started s.nextPid ∧
    (getStoreDataStep now ttl s store country force1).2.fetchCount
        = s.fetchCount + 1 ∧
    (getStoreDataStep now ttl (getStoreDataStep now ttl s store country force1).2
        store country force2).1 = .joined s.nextPid ∧
    (getStoreDataStep now ttl (getStoreDataStep now ttl s store country force1).2
        store country force2).2
      = (getStoreDataStep now ttl s store country force1).2 ∧
    awaitResult resolvePid (getStoreDataStep now ttl s store country force1).1
      = awaitResult resolvePid
          (getStoreDataStep now ttl
            (getStoreDataStep now ttl s store country force1).2
            store country force2).1 := by
  have hstep1 : getStoreDataStep now ttl s store country force1 =
      (.started s.nextPid,
        { s with
          inFlight := (store ++ ":" ++ country, s.nextPid) :: s.inFlight,
          nextPid := s.nextPid + 1,
          fetchCount := s.fetchCount + 1 }) := by
    simp [getStoreDataStep, startOrJoin, hc, hi]
  have hkey :
      ((store ++ ":" ++ country, s.nextPid) :: s.inFlight).lookup
          (store ++ ":" ++ country) = some s.nextPid := by
    simp [List.lookup]
  have hstep2 : getStoreDataStep now ttl
      (getStoreDataStep now ttl s store country force1).2 store country force2 =
      (.joined s.nextPid, (getStoreDataStep now ttl s store country force1).2) := by
    rw [hstep1]
    simp [getStoreDataStep, startOrJoin, hc, hkey]
  rw [hstep2, hstep1]
  exact ⟨rfl, rfl, rfl, rfl, rfl⟩

/-- Witness for `inFlight_dedup`: an empty server state, two requests for
`(apple, US)`. -/
theorem inFlight_dedup_witness :
    (getStoreDataStep 0 300 ⟨[], [], 0, 0⟩ "apple" "US" false).1
        = .started 0 ∧
    (getStoreDataStep 0 300 ⟨[], [], 0, 0⟩ "apple" "US" false).2.fetchCount
        = 0 + 1 ∧
    (getStoreDataStep 0 300
        (getStoreDataStep 0 300 ⟨[], [], 0, 0⟩ "apple" "US" false).2
        "apple" "US" true).1 = .joined 0 ∧
    (getStoreDataStep 0 300
        (getStoreDataStep 0 300 ⟨[], [], 0, 0⟩ "apple" "US" false).2
        "apple" "US" true).2
      = (getStoreDataStep 0 300 ⟨[], [], 0, 0⟩ "apple" "US" false).2 ∧
    awaitResult (fun _ => prevAppleExample)
        (getStoreDataStep 0 300 ⟨[], [], 0, 0⟩ "apple" "US" false).1
      = awaitResult (fun _ => prevAppleExample)
          (getStoreDataStep 0 300
            (getStoreDataStep 0 300 ⟨[], [], 0, 0⟩ "apple" "US" false).2
            "apple" "US" true).1 :=
  inFlight_dedup 0 300 ⟨[], [], 0, 0⟩ "apple" "US" false true
    (fun _ => prevAppleExample) rfl rfl

lemma tryNext_limit (s : LimiterState) : (tryNext s).limit = s.limit := by
  unfold tryNext
  rcases s.queue with _ | ⟨q0, qs⟩
  · rfl
  · by_cases hlt : s.active < s.limit <;> simp [hlt]

lemma tryNext_inv (tasks : Nat → Except String Nat) (s : LimiterState)
    (h1 : s.active = s.running.length) (h2 : s.active ≤ s.limit)
    (h3 : s.submitted = s.started ++ s.queue)
    (h4 : ∀ p ∈ s.resolved, p.2 = tasks p.1) :
    (tryNext s).active = (tryNext s).running.length ∧
    (tryNext s).active ≤ (tryNext s).limit ∧
    (tryNext s).submitted = (tryNext s).started ++ (tryNext s).queue ∧
    (∀ p ∈ (tryNext s).resolved, p.2 = tasks p.1) := by
  unfold tryNext
  rcases hq : s.queue with _ | ⟨q0, qs⟩
  · exact ⟨h1, h2, by rw [h3, hq], h4⟩
  · by_cases hlt : s.active < s.limit
    · simp only [hlt, if_true]
      refine ⟨by simp [h1], by simpa using hlt, ?_, h4⟩
      show s.submitted = (s.started ++ [q0]) ++ qs
      rw [h3, hq, List.append_assoc]
      rfl
    · simp only [hlt, if_false]
      exact ⟨h1, h2, by rw [h3, hq], h4⟩

lemma submitTask_inv (tasks : Nat → Except String Nat) (s : LimiterState)
    (t : Nat)
    (h1 : s.active = s.running.length) (h2 : s.active ≤ s.limit)
    (h3 : s.submitted = s.started ++ s.queue)
    (h4 : ∀ p ∈ s.resolved, p.2 = tasks p.1) :
    (submitTask s t).active = (submitTask s t).running.length ∧
    (submitTask s t).active ≤ (submitTask s t).limit ∧
    (submitTask s t).submitted = (submitTask s t).started ++ (submitTask s t).queue ∧
    (∀ p ∈ (submitTask s t).resolved, p.2 = tasks p.1) := by
  exact tryNext_inv tasks _ h1 h2 (by simp [h3]) h4

lemma settleTask_inv (tasks : Nat → Except String Nat) (s : LimiterState)
    (t : Nat) (ht : t ∈ s.running)
    (h1 : s.active = s.running.length) (h2 : s.active ≤ s.limit)
    (h3 : s.submitted = s.started ++ s.queue)
    (h4 : ∀ p ∈ s.resolved, p.2 = tasks p.1) :
    (settleTask tasks s t).active = (settleTask tasks s t).running.length ∧
    (settleTask tasks s t).active ≤ (settleTask tasks s t).limit ∧
    (settleTask tasks s t).submitted
        = (settleTask tasks s t).started ++ (settleTask tasks s t).queue ∧
    (∀ p ∈ (settleTask tasks s t).resolved, p.2 = tasks p.1) := by
  apply tryNext_inv tasks
  · simp only []
    rw [List.length_erase_of_mem ht, h1]
  · exact Nat.le_trans (Nat.sub_le _ _) h2
  · exact h3
  · intro p hp
    simp only [List.mem_append, List.mem_singleton] at hp
    rcases hp with hp | hp
    · exact h4 p hp
    · rw [hp]

lemma limiter_inv (tasks : Nat → Except String Nat) (s : LimiterState)
    (h : LimReach tasks s) :
    s.active = s.running.length ∧ s.active ≤ s.limit ∧
    s.submitted = s.started ++ s.queue ∧
    (∀ p ∈ s.resolved, p.2 = tasks p.1) := by
  induction h with
  | init limit => simp [initLimiter]
  | step h hs ih =>
    obtain ⟨h1, h2, h3, h4⟩ := ih
    cases hs with
    | submit t => exact submitTask_inv tasks _ t h1 h2 h3 h4
    | settle t ht => exact settleTask_inv tasks _ t ht h1 h2 h3 h4

/-- C8 (confirmed).  In every state reachable by submissions and settlements
from a fresh limiter: at most `limit` tasks run concurrently; the submission
log is exactly the start log followed by the wait queue, so queued tasks
start in FIFO submission order only as capacity frees up; every delivered
outcome is the settling task's own result or failure (the limiter never
retries or substitutes results); and settling any running task — whether it
succeeded or failed — immediately starts the next queued task, leaving the
rest of the queue intact. -/
theorem limiter_guarantees (tasks : Nat → Except String Nat)
    (s : LimiterState) (h : LimReach tasks s) :
    s.running.length ≤ s.limit ∧
    s.submitted = s.started ++ s.queue ∧
    (∀ p ∈ s.resolved, p.2 = tasks p.1) ∧
    (∀ t q0 qs, t ∈ s.running → s.queue = q0 :: qs →
      (settleTask tasks s t).started = s.started ++ [q0] ∧
      (settleTask tasks s t).queue = qs ∧
      (settleTask tasks s t).resolved = s.resolved ++ [(t, tasks t)]) := by
  obtain ⟨h1, h2, h3, h4⟩ := limiter_inv tasks s h
  refine ⟨h1 ▸ h2, h3, h4, ?_⟩
  intro t q0 qs ht hq
  have hact : 1 ≤ s.active := by
    rw [h1]
    exact List.length_pos_of_mem ht
  have hlt : s.active - 1 < s.limit := by omega
  unfold settleTask tryNext
  simp [hq, hlt]

/-- Witness for `limiter_guarantees`: one task submitted to a fresh limiter
with bound 2 is started immediately; the logs agree. -/
theorem limiter_guarantees_witness :
    (submitTask (initLimiter 2) 7).submitted
      = (submitTask (initLimiter 2) 7).started ++ (submitTask (initLimiter 2) 7).queue :=
  (limiter_guarantees (fun _ => .ok 0) (submitTask (initLimiter 2) 7)
    (LimReach.step (LimReach.init 2) (LimStep.submit (initLimiter 2) 7))).2.1

/-- C9 (confirmed).  A country request whose code is missing or absent from
the catalog is rejected immediately with 404, leaving the server state (cache,
in-flight map, fetch count) completely untouched — no upstream fetch, no retry,
no cache write; a request for a catalog code never gets that rejection: it is
answered 200 with best-effort per-store data. -/
theorem unknownKey_rejected (countryCodes : List String) (c : String)
    (now ttl : Int) (s : ServerState) (force : Bool) :
    handleCountryRequest countryCodes none now ttl s force = (404, s) ∧
    (¬ countryCodes.contains c = true →
      handleCountryRequest countryCodes (some c) now ttl s force = (404, s)) ∧
    (c ≠ "" → countryCodes.contains c = true →
      (handleCountryRequest countryCodes (some c) now ttl s force).1 = 200) := by
  refine ⟨rfl, ?_, ?_⟩
  · intro h
    simp only [handleCountryRequest]
    rw [if_pos (Or.inr h)]
  · intro h1 h2
    simp only [handleCountryRequest]
    rw [if_neg ?hne]
    case hne => exact fun hor => hor.elim h1 (fun hnc => hnc h2)

/-- Witness for `unknownKey_rejected`: catalog `["US"]`, request for the
unknown code `"DE"` on an empty server state. -/
theorem unknownKey_rejected_witness :
    handleCountryRequest ["US"] (some "DE") 0 300 ⟨[], [], 0, 0⟩ false
      = (404, ⟨[], [], 0, 0⟩) :=
  (unknownKey_rejected ["US"] "DE" 0 300 ⟨[], [], 0, 0⟩ false).2.1 (by decide)

/-- C10 (confirmed).  The part_001 apple fetcher returns an empty `errors`
list for every structurally successful fetch, and every per-item enrichment
failure — iTunes lookup throwing, returning no data, or the item not
categorized as a game — silently drops that item: replacing any of those
outcomes by any other dropping outcome (e.g. a thrown lookup by a non-game
categorization) yields the identical result, so partial per-item failures
are indistinguishable from filtered-out items. -/
theorem apple_partial_failures_silent (country now : String)
    (newEntries updatedEntries : List RssEntry)
    (lookup lookup2 : String → LookupResult)
    (hagree : ∀ id, lookup id = lookup2 id ∨
      (dropsEntry (lookup id) = true ∧ dropsEntry (lookup2 id) = true)) :
    (fetchAppleData country newEntries updatedEntries lookup now).errors = [] ∧
    (∀ entry, dropsEntry (lookup entry.id) = true →
      enrichEntry lookup country entry = none) ∧
    fetchAppleData country newEntries updatedEntries lookup now
      = fetchAppleData country newEntries updatedEntries lookup2 now := by
  have hdrop : ∀ (l : String → LookupResult) (entry : RssEntry),
      dropsEntry (l entry.id) = true → enrichEntry l country entry = none := by
    intro l entry hd
    unfold enrichEntry
    cases hl : l entry.id with
    | threw m => rfl
    | missing => rfl
    | found d =>
      rw [hl] at hd
      simp only [dropsEntry, Bool.not_eq_true'] at hd
      simp [hd]
      simpa using hd
  have henrich : ∀ entry, enrichEntry lookup country entry
      = enrichEntry lookup2 country entry := by
    intro entry
    rcases hagree entry.id with h | ⟨h1, h2⟩
    · unfold enrichEntry
      rw [h]
    · rw [hdrop lookup entry h1, hdrop lookup2 entry h2]
  refine ⟨rfl, fun entry => hdrop lookup entry, ?_⟩
  unfold fetchAppleData
  rw [List.map_congr_left (fun a _ => henrich a)]
  rw [show updatedEntries.map (enrichEntry lookup country)
      = updatedEntries.map (enrichEntry lookup2 country) from
    List.map_congr_left (fun a _ => henrich a)]

/-- Witness for `apple_partial_failures_silent`: a lookup that always throws
and a lookup that always finds nothing produce the identical (empty-errors)
result for the same feed entry. -/
theorem apple_partial_failures_silent_witness :
    (fetchAppleData "US" [rssEntryExample] [] (fun _ => .threw "x") "T").errors
        = [] ∧
    (∀ entry, dropsEntry ((fun _ => LookupResult.threw "x") entry.id) = true →
      enrichEntry (fun _ => LookupResult.threw "x") "US" entry = none) ∧
    fetchAppleData "US" [rssEntryExample] [] (fun _ => .threw "x") "T"
      = fetchAppleData "US" [rssEntryExample] [] (fun _ => .missing) "T" :=
  apple_partial_failures_silent "US" "T" [rssEntryExample] []
    (fun _ => .threw "x") (fun _ => .missing)
    (fun _ => Or.inr ⟨rfl, rfl⟩)

end StoreScrap
